import Mathlib

/-!
# Verification of the directory-service core (categories, buildings, companies, geo search)

Shallow embedding of the repository's core logic:

* `src/utils.py` — `update_category_path`, `get_all_child_category_ids`,
  `calculate_distance_haversine`;
* `src/routers/categories.py` — `create_category`;
* `src/routers/buildings.py` — `delete_building`;
* `src/routers/companies.py` — `create_company`, `get_company`,
  `get_companies_by_location`.

The relational store is modelled as an explicit record of entity lists threaded
through every operation; SQLAlchemy's `first()` becomes `List.find?`, a filtered
query becomes `List.filter`, and an HTTP error raised via `HTTPException` becomes
`Except.error status`.  Python truthiness tests (`if category.parent_id:`,
`if parent.path`, `if company.phones`) are modelled explicitly, since `0`, `None`
and `""` are all falsy in Python.  Real-number coordinates model the program's
IEEE doubles with exact real arithmetic.
-/

set_option maxHeartbeats 1000000

/-- A row of the `categories` table (`src/models.py`): integer primary key,
name, nullable self-referential `parent_id`, `level` (default `0`) and the
nullable materialized `path` string. -/
structure Category where
  id : Nat
  name : String
  parent_id : Option Nat
  level : Int
  path : Option String
deriving Repr, DecidableEq

/-- A row of the `buildings` table (`src/models.py`): primary key, address and
real-valued latitude / longitude. -/
structure Building where
  id : Nat
  address : String
  latitude : ℝ
  longitude : ℝ

/-- A row of the `companies` table (`src/models.py`): phones are stored as one
comma-separated string, `is_active` as the integer 0/1, and the many-to-many
company↔category association table is carried as the list of category ids
linked to this row. -/
structure Company where
  id : Nat
  name : String
  phones : String
  description : Option String
  website : Option String
  email : Option String
  building_id : Nat
  is_active : Nat
  category_ids : List Nat
deriving Repr, DecidableEq

/-- The relational store (`catalog.db`): the three tables plus the next
auto-increment primary key for the two tables the modelled operations insert
into. -/
structure DB where
  cats : List Category
  buildings : List Building
  companies : List Company
  nextCategoryId : Nat
  nextCompanyId : Nat

/-- Python truthiness of an optional integer column value: `None` and `0` are
falsy (`if category.parent_id:`). -/
def optNatTruthy : Option Nat → Bool
  | none => false
  | some n => n != 0

/-- Python truthiness of an optional string column value: `None` and `""` are
falsy (`if parent.path`, `if category.path`). -/
def optStrTruthy : Option String → Bool
  | none => false
  | some s => s != ""

/-- `db.query(Category).filter(Category.id == i).first()`. -/
def findCategory (db : DB) (i : Nat) : Option Category :=
  db.cats.find? (fun c => c.id == i)

/-- `db.query(Building).filter(Building.id == i).first()`. -/
def findBuilding (db : DB) (i : Nat) : Option Building :=
  db.buildings.find? (fun b => b.id == i)

/-- `db.query(Company).filter(Company.id == i).first()`. -/
def findCompany (db : DB) (i : Nat) : Option Company :=
  db.companies.find? (fun c => c.id == i)

/-- Committing a mutated ORM `Category` object: the row with the same primary
key is overwritten. -/
def saveCategory (db : DB) (c : Category) : DB :=
  { db with cats := db.cats.map (fun x => if x.id == c.id then c else x) }

/-- `update_category_path` from `src/utils.py`: if `category.parent_id` is
truthy, look the parent up and set
`path = f"{parent.path}/{category.id}"` when `parent.path` is truthy, else
`f"{parent.id}/{category.id}"`, and `level = parent.level + 1`; if the parent
is not found the row is left untouched.  Otherwise (no parent / parent id 0)
set `path = str(category.id)` and `level = 0`. -/
def update_category_path (db : DB) (category : Category) : Category :=
  if optNatTruthy category.parent_id then
    match findCategory db (category.parent_id.getD 0) with
    | some parent =>
        { category with
          path := some (if optStrTruthy parent.path
                        then parent.path.getD "" ++ "/" ++ toString category.id
                        else toString parent.id ++ "/" ++ toString category.id),
          level := parent.level + 1 }
    | none => category
  else
    { category with path := some (toString category.id), level := 0 }

/-- The first half of `create_category` (`src/routers/categories.py`): validate
the (truthy) parent id, then insert the new row and `db.commit()`.  After this
commit the row is durably visible with its default `level = 0` and `path = NULL`;
the path is only written by a second, separate commit. -/
def create_category_insert (db : DB) (nm : String) (parent_id : Option Nat) :
    Except Nat (DB × Category) :=
  if optNatTruthy parent_id && (findCategory db (parent_id.getD 0)).isNone then
    .error 404
  else
    let c0 : Category :=
      { id := db.nextCategoryId, name := nm, parent_id := parent_id,
        level := 0, path := none }
    .ok ({ db with cats := db.cats ++ [c0], nextCategoryId := db.nextCategoryId + 1 }, c0)

/-- `create_category` from `src/routers/categories.py`: insert + commit, then
`update_category_path` and a second commit. -/
def create_category (db : DB) (nm : String) (parent_id : Option Nat) :
    Except Nat (DB × Category) :=
  match create_category_insert db nm parent_id with
  | .error e => .error e
  | .ok (db1, c0) =>
      let c1 := update_category_path db1 c0
      .ok (saveCategory db1 c1, c1)

/-- SQL `LIKE` matching on character lists: `%` matches any (possibly empty)
substring, `_` matches exactly one character, any other pattern character
matches itself.  The queries issued by `get_all_child_category_ids` only ever
use patterns built from a materialized path (digits and `/`) followed by `%`,
on which this matcher agrees with SQLite's (ASCII-case-insensitive) `LIKE`,
since case can only matter for letter pattern characters. -/
def likeMatch : List Char → List Char → Bool
  | [], s => s.isEmpty
  | p :: ps, s =>
    if p = '%' then s.tails.any (fun t => likeMatch ps t)
    else
      match s with
      | [] => false
      | c :: s1 => if p = '_' then likeMatch ps s1 else p == c && likeMatch ps s1

/-- `column.like(pattern)` on strings. -/
def sqlLike (pattern s : String) : Bool := likeMatch pattern.data s.data

/-- `get_all_child_category_ids` from `src/utils.py`: start from
`[category_id]`; look the category up; if it exists and its path is truthy,
add the ids of every category whose path is `LIKE f"{category.path}/%"` or
equal to `category.path`, skipping the target id itself. -/
def get_all_child_category_ids (db : DB) (category_id : Nat) : List Nat :=
  let result := [category_id]
  match findCategory db category_id with
  | none => result
  | some category =>
    if optStrTruthy category.path then
      let tpath := category.path.getD ""
      let children := db.cats.filter (fun child =>
        match child.path with
        | some s => sqlLike (tpath ++ "/%") s || s == tpath
        | none => false)
      result ++ (children.filter (fun child => child.id != category_id)).map (fun c => c.id)
    else result

/-- `math.radians`: degrees to radians. -/
noncomputable def radians (x : ℝ) : ℝ := x * Real.pi / 180

/-- `calculate_distance_haversine` from `src/utils.py`, with IEEE doubles
modelled by exact reals: convert the four coordinates to radians, apply the
Haversine formula and scale by the Earth radius constant `6371` km. -/
noncomputable def calculate_distance_haversine (lat1 lon1 lat2 lon2 : ℝ) : ℝ :=
  let rlat1 := radians lat1
  let rlon1 := radians lon1
  let rlat2 := radians lat2
  let rlon2 := radians lon2
  let dlat := rlat2 - rlat1
  let dlon := rlon2 - rlon1
  let a := Real.sin (dlat / 2) ^ 2 +
    Real.cos rlat1 * Real.cos rlat2 * Real.sin (dlon / 2) ^ 2
  let c := 2 * Real.arcsin (Real.sqrt a)
  c * 6371

/-- One row of `db.query(Company).join(Building)` as consumed by
`get_companies_by_location`: the company's primary key and active flag together
with its building's coordinates. -/
structure LocCompany where
  id : Nat
  is_active : Nat
  building_latitude : ℝ
  building_longitude : ℝ

/-- `get_companies_by_location` from `src/routers/companies.py` (lines
184-243): filter by the active flag, then — in this order — if `radius_km` was
supplied run the in-process Haversine loop over all candidates; otherwise, if
all four rectangle bounds were supplied, reject an invalid rectangle with
status 400 and otherwise delegate a range filter to the store; otherwise fail
with status 400. -/
noncomputable def get_companies_by_location (rows : List LocCompany)
    (latitude longitude : ℝ)
    (radius_km min_lat max_lat min_lng max_lng : Option ℝ)
    (active_only : Bool) : Except Nat (List LocCompany) :=
  let base := if active_only then rows.filter (fun c => c.is_active == 1) else rows
  match radius_km with
  | some r =>
      .ok (base.foldl
        (fun acc company =>
          if calculate_distance_haversine latitude longitude
               company.building_latitude company.building_longitude ≤ r
          then acc ++ [company] else acc) [])
  | none =>
      match min_lat, max_lat, min_lng, max_lng with
      | some a, some b, some c, some d =>
          if a ≥ b ∨ c ≥ d then .error 400
          else .ok (base.filter (fun company =>
            decide (a ≤ company.building_latitude ∧ company.building_latitude ≤ b ∧
                    c ≤ company.building_longitude ∧ company.building_longitude ≤ d)))
      | _, _, _, _ => .error 400

/-- `delete_building` from `src/routers/buildings.py`: 404 when the building
does not exist, 400 (the spec's Conflict class) when any company references
it, otherwise delete the row.  The `companies` filter models the ORM cascade
configured on `Building.companies`; it is only reached when the count is 0. -/
def delete_building (db : DB) (building_id : Nat) : Except Nat DB :=
  match findBuilding db building_id with
  | none => .error 404
  | some _ =>
      let companies_count := db.companies.countP (fun c => c.building_id == building_id)
      if companies_count > 0 then .error 400
      else
        .ok { db with
              buildings := db.buildings.eraseP (fun b => b.id == building_id),
              companies := db.companies.filter (fun c => c.building_id != building_id) }

/-- Python `sep.join(xs)` at the character level. -/
def joinWith (sep : Char) : List (List Char) → List Char
  | [] => []
  | [x] => x
  | x :: xs => x ++ sep :: joinWith sep xs

/-- `",".join(phones)` as used by `create_company`. -/
def pyJoinComma (xs : List String) : String := ⟨joinWith ',' (xs.map String.data)⟩

/-- Python `s.split(sep)` for a one-character separator: always returns at
least one (possibly empty) field; `"".split(",") == [""]`. -/
def splitOnChar (sep : Char) : List Char → List (List Char)
  | [] => [[]]
  | c :: cs =>
      let r := splitOnChar sep cs
      if c = sep then [] :: r
      else
        match r with
        | [] => [[c]]
        | h :: t => (c :: h) :: t

/-- `phones.split(",")` as used by `get_company`. -/
def pySplitComma (s : String) : List String :=
  (splitOnChar ',' s.data).map (fun l => ⟨l⟩)

/-- The body of a `CompanyCreate` request (`src/schemas.py`): phones arrive as
a list, categories as a list of ids, the active flag as a boolean. -/
structure CompanyCreateReq where
  name : String
  phones : List String
  description : Option String
  website : Option String
  email : Option String
  building_id : Nat
  category_ids : List Nat
  is_active : Bool
deriving Repr, DecidableEq

/-- `create_company` from `src/routers/companies.py`: 404 when the building is
missing or when the categories fetched by `Category.id.in_(category_ids)` are
fewer than the requested ids; otherwise insert the row with the phones list
joined on `","` and the active flag stored as 0/1. -/
def create_company (db : DB) (req : CompanyCreateReq) : Except Nat (DB × Company) :=
  match findBuilding db req.building_id with
  | none => .error 404
  | some _ =>
      let categories := db.cats.filter (fun c => req.category_ids.contains c.id)
      if categories.length != req.category_ids.length then .error 404
      else
        let db_company : Company :=
          { id := db.nextCompanyId, name := req.name,
            phones := pyJoinComma req.phones,
            description := req.description, website := req.website, email := req.email,
            building_id := req.building_id,
            is_active := if req.is_active then 1 else 0,
            category_ids := categories.map (fun c => c.id) }
        let db2 : DB :=
          { db with
            companies := db.companies ++ [db_company],
            nextCompanyId := db.nextCompanyId + 1 }
        .ok (db2, db_company)

/-- The company representation returned to the caller: phones split back into
a list, the active flag surfaced as a boolean. -/
structure CompanyOut where
  id : Nat
  name : String
  phones : List String
  description : Option String
  website : Option String
  email : Option String
  building_id : Nat
  is_active : Bool
  category_ids : List Nat
deriving Repr, DecidableEq

/-- `get_company` from `src/routers/companies.py`: 404 when the id is unknown,
otherwise return the row with `phones.split(",") if company.phones else []`
and `bool(is_active)`. -/
def get_company (db : DB) (company_id : Nat) : Except Nat CompanyOut :=
  match findCompany db company_id with
  | none => .error 404
  | some company =>
      .ok { id := company.id, name := company.name,
            phones := if company.phones != "" then pySplitComma company.phones else [],
            description := company.description, website := company.website,
            email := company.email, building_id := company.building_id,
            is_active := company.is_active != 0,
            category_ids := company.category_ids }

/-! ### Concrete store states used by the witnesses -/

/-- A store holding one root category `Food` with path `"1"`. -/
def dbC1W : DB := ⟨[⟨1, "Food", none, 0, some "1"⟩], [], [], 2, 1⟩

/-- The store after creating `Meat` under `Food` in `dbC1W`. -/
def dbC1W2 : DB :=
  ⟨[⟨1, "Food", none, 0, some "1"⟩, ⟨2, "Meat", some 1, 1, some "1/2"⟩], [], [], 3, 1⟩

/-- The `Meat` row produced by that creation. -/
def cC1W : Category := ⟨2, "Meat", some 1, 1, some "1/2"⟩

/-- A four-category store: the chain `1 → 1/2 → 1/2/3` plus an unrelated root
with path `"12"` (the classic prefix-confusion candidate for target path `"1"`). -/
def dbC2W : DB :=
  ⟨[⟨1, "Food", none, 0, some "1"⟩, ⟨2, "Meat", some 1, 1, some "1/2"⟩,
    ⟨12, "Other", none, 0, some "12"⟩, ⟨3, "Beef", some 2, 2, some "1/2/3"⟩],
   [], [], 13, 1⟩

/-- A building used by the `delete_building` witnesses. -/
def bldW : Building := ⟨1, "Lenina 1", 0, 0⟩

/-- A store where one company references building 1. -/
def dbBusyW : DB := ⟨[], [bldW], [⟨1, "Acme", "5", none, none, none, 1, 1, []⟩], 1, 2⟩

/-- A store where building 1 has no companies. -/
def dbFreeW : DB := ⟨[], [bldW], [], 1, 1⟩

/-- A store with one building and one category, ready for company creation. -/
def dbPhW : DB := ⟨[⟨1, "Cat", none, 0, some "1"⟩], [⟨1, "Addr", 0, 0⟩], [], 2, 1⟩

/-- A company-creation request with two ordinary phone numbers. -/
def reqPhW : CompanyCreateReq :=
  ⟨"Acme", ["1-111-111", "2-222-222"], none, none, none, 1, [1], true⟩

/-- The company row produced by creating `reqPhW` in `dbPhW`. -/
def compPhW : Company :=
  ⟨1, "Acme", "1-111-111,2-222-222", none, none, none, 1, 1, [1]⟩

/-- The store after creating `reqPhW` in `dbPhW`. -/
def dbPhW2 : DB := { dbPhW with companies := [compPhW], nextCompanyId := 2 }

/-- A company-creation request whose phone list is the single empty string. -/
def reqPhE : CompanyCreateReq := ⟨"Empty", [""], none, none, none, 1, [1], true⟩

/-- The company row produced by creating `reqPhE`: the joined phones string is
empty. -/
def compPhE : Company := ⟨1, "Empty", "", none, none, none, 1, 1, [1]⟩

/-- The store after creating `reqPhE` in `dbPhW`. -/
def dbPhE2 : DB := { dbPhW with companies := [compPhE], nextCompanyId := 2 }

/-- What `get_company` returns for that row: the phones come back as `[]`,
not `[""]`. -/
def outPhE : CompanyOut := ⟨1, "Empty", [], none, none, none, 1, true, [1]⟩

/-! ### Helper lemmas -/

theorem calculate_distance_haversine_eq (lat1 lon1 lat2 lon2 : ℝ) :
    calculate_distance_haversine lat1 lon1 lat2 lon2 =
      2 * Real.arcsin (Real.sqrt (Real.sin ((radians lat2 - radians lat1) / 2) ^ 2 +
        Real.cos (radians lat1) * Real.cos (radians lat2) *
        Real.sin ((radians lon2 - radians lon1) / 2) ^ 2)) * 6371 := rfl

/-! ### C9 — Haversine symmetry and vanishing on the diagonal -/

/-- **C9.** The Haversine distance function is symmetric in its two points and
vanishes when both points coincide; the computation converts degrees to
radians and scales by the Earth radius constant 6371 km (both visible in the
definition `calculate_distance_haversine`, which `calculate_distance_haversine_eq`
spells out). -/
theorem calculate_distance_haversine_symm_and_self_zero :
    (∀ lat1 lon1 lat2 lon2 : ℝ,
       calculate_distance_haversine lat1 lon1 lat2 lon2
         = calculate_distance_haversine lat2 lon2 lat1 lon1) ∧
    (∀ lat lon : ℝ, calculate_distance_haversine lat lon lat lon = 0) := by
  constructor
  · intro lat1 lon1 lat2 lon2
    rw [calculate_distance_haversine_eq, calculate_distance_haversine_eq]
    rw [show (radians lat2 - radians lat1) / 2 = -((radians lat1 - radians lat2) / 2) by
          ring,
        show (radians lon2 - radians lon1) / 2 = -((radians lon1 - radians lon2) / 2) by
          ring,
        Real.sin_neg, Real.sin_neg, neg_sq, neg_sq,
        mul_comm (Real.cos (radians lat1)) (Real.cos (radians lat2))]
  · intro lat lon
    rw [calculate_distance_haversine_eq]
    simp

/-! ### C10 — subtree resolution of a missing or pathless category -/

/-- **C10.** When `get_all_child_category_ids` is invoked with an id for which
no category exists, or whose category has a `NULL` or empty path, it raises
nothing and returns exactly `[category_id]`. -/
theorem get_all_child_category_ids_missing_or_pathless (db : DB) (cid : Nat)
    (h : findCategory db cid = none ∨
         ∃ c, findCategory db cid = some c ∧ (c.path = none ∨ c.path = some "")) :
    get_all_child_category_ids db cid = [cid] := by
  unfold get_all_child_category_ids
  rcases h with h | ⟨c, hc, hp⟩
  · rw [h]
  · rw [hc]
    rcases hp with hp | hp <;> simp [optStrTruthy, hp]

theorem get_all_child_category_ids_missing_or_pathless_witness :
    get_all_child_category_ids ⟨[], [], [], 1, 1⟩ 7 = [7] :=
  get_all_child_category_ids_missing_or_pathless ⟨[], [], [], 1, 1⟩ 7 (Or.inl rfl)

/-! ### C6 — creation under a dangling parent id -/

/-- **C6 (counterexample).** The claim says *every* creation request naming a
non-existent parent fails with NotFound.  A parent id of `0` refers to no
category (SQLite ids start at 1; the store here is even empty), yet because
`if category.parent_id:` is falsy for `0`, the request succeeds and a row is
persisted with `parent_id = 0` and a root-style path. -/
theorem create_category_parent_id_zero_accepted :
    create_category ⟨[], [], [], 1, 1⟩ "Orphan" (some 0)
      = .ok (⟨[⟨1, "Orphan", some 0, 0, some "1"⟩], [], [], 2, 1⟩,
             ⟨1, "Orphan", some 0, 0, some "1"⟩) := rfl

/-- **C6 (amended).** For every creation request supplying a *non-zero* parent
id that matches no existing category, `create_category` fails with 404 before
any row is inserted (the error return carries no store state: the insert is
syntactically after the check). -/
theorem create_category_missing_parent_not_found (db : DB) (nm : String) (p : Nat)
    (hp : p ≠ 0) (hmiss : findCategory db p = none) :
    create_category db nm (some p) = .error 404 := by
  unfold create_category create_category_insert
  simp [optNatTruthy, hp, hmiss]

theorem create_category_missing_parent_not_found_witness :
    create_category ⟨[], [], [], 1, 1⟩ "X" (some 5) = .error 404 :=
  create_category_missing_parent_not_found ⟨[], [], [], 1, 1⟩ "X" 5 (by decide) rfl

/-! ### C5 — atomicity of the two-step category creation -/

/-- **C5 (code bug).** The source performs *two* separate `db.commit()` calls:
one right after the insert, a second one after `update_category_path`.  The
spec requires both steps in one transaction with no observable intermediate
state.  Concretely, creating `"Food"` in an empty store commits an
intermediate state in which the row with id 1 is durably visible with
`path = NULL` (and `level = 0`); only the second commit stores path `"1"`.
Between the two commits any reader observes the pathless row, and a failure
of the second step would leave this partial write behind. -/
theorem create_category_commits_twice_intermediate_row_visible :
    create_category_insert ⟨[], [], [], 1, 1⟩ "Food" none
        = .ok (⟨[⟨1, "Food", none, 0, none⟩], [], [], 2, 1⟩, ⟨1, "Food", none, 0, none⟩) ∧
    findCategory ⟨[⟨1, "Food", none, 0, none⟩], [], [], 2, 1⟩ 1
        = some ⟨1, "Food", none, 0, none⟩ ∧
    create_category ⟨[], [], [], 1, 1⟩ "Food" none
        = .ok (⟨[⟨1, "Food", none, 0, some "1"⟩], [], [], 2, 1⟩,
               ⟨1, "Food", none, 0, some "1"⟩) :=
  ⟨rfl, rfl, rfl⟩

/-! ### C7 — building deletion guarded by the company count -/

/-- **C7.** For every existing building: if any company references it the
deletion fails with the Conflict-class error (HTTP 400 in the source, the
spec's 409/400 class) and the error return carries no store mutation; if the
reference count is zero the deletion always succeeds, removes exactly that
building row and leaves companies and categories untouched. -/
theorem delete_building_conflict_or_success (db : DB) (bid : Nat) (b : Building)
    (hfind : findBuilding db bid = some b) :
    (0 < db.companies.countP (fun c => c.building_id == bid) →
       delete_building db bid = .error 400) ∧
    (db.companies.countP (fun c => c.building_id == bid) = 0 →
       ∃ db2, delete_building db bid = .ok db2 ∧
         db2.buildings = db.buildings.eraseP (fun x => x.id == bid) ∧
         db2.companies = db.companies ∧ db2.cats = db.cats) := by
  constructor
  · intro hpos
    unfold delete_building
    rw [hfind]
    simp only [gt_iff_lt]
    rw [if_pos hpos]
  · intro hzero
    have hnone : ∀ c ∈ db.companies, ¬ (c.building_id == bid) = true :=
      List.countP_eq_zero.mp hzero
    refine ⟨{ db with
              buildings := db.buildings.eraseP (fun x => x.id == bid),
              companies := db.companies.filter (fun c => c.building_id != bid) },
            ?_, rfl, ?_, rfl⟩
    · unfold delete_building
      rw [hfind]
      simp only [gt_iff_lt]
      rw [if_neg (by omega)]
    · show db.companies.filter (fun c => c.building_id != bid) = db.companies
      refine List.filter_eq_self.mpr (fun c hc => ?_)
      have := hnone c hc
      simp only [bne_iff_ne, ne_eq]
      simpa using this

theorem delete_building_conflict_or_success_witness :
    delete_building dbBusyW 1 = .error 400 ∧
    (∃ db2, delete_building dbFreeW 1 = .ok db2 ∧ db2.buildings = [] ∧
       db2.companies = [] ∧ db2.cats = []) := by
  constructor
  · exact (delete_building_conflict_or_success dbBusyW 1 bldW rfl).1 (by decide)
  · obtain ⟨db2, h1, h2, h3, h4⟩ :=
      (delete_building_conflict_or_success dbFreeW 1 bldW rfl).2 (by decide)
    exact ⟨db2, h1, h2, h3, h4⟩

/-! ### C3 / C4 — the geo search endpoint -/

theorem foldl_if_append_eq_filter {α : Type} (p : α → Prop) [DecidablePred p]
    (l acc : List α) :
    l.foldl (fun acc c => if p c then acc ++ [c] else acc) acc
      = acc ++ l.filter (fun c => decide (p c)) := by
  induction l generalizing acc with
  | nil => simp
  | cons a l ih =>
      by_cases h : p a <;>
        simp [h, ih, List.filter_cons, List.append_assoc]

theorem get_companies_by_location_box_eq (rows : List LocCompany)
    (latitude longitude a b c d : ℝ) (ao : Bool) :
    get_companies_by_location rows latitude longitude none
        (some a) (some b) (some c) (some d) ao
      = if a ≥ b ∨ c ≥ d then .error 400
        else .ok ((if ao then rows.filter (fun x => x.is_active == 1) else rows).filter
          (fun company =>
            decide (a ≤ company.building_latitude ∧ company.building_latitude ≤ b ∧
              c ≤ company.building_longitude ∧ company.building_longitude ≤ d))) := rfl

/-- **C3.** With a radius supplied, the endpoint never fails and returns
exactly the candidate companies (the active-filtered base set, in their
original order) whose Haversine distance from the origin is `≤ radius_km`:
the result equals a `filter` of the candidates, hence membership is governed
by the distance predicate alone and the output is a sublist (stable order,
no resorting) of the candidate sequence. -/
theorem radius_search_stable_haversine_filter (rows : List LocCompany)
    (latitude longitude r : ℝ) (mnla mxla mnlo mxlo : Option ℝ) (ao : Bool) :
    ∃ res,
      get_companies_by_location rows latitude longitude (some r) mnla mxla mnlo mxlo ao
        = .ok res ∧
      List.Sublist res (if ao then rows.filter (fun c => c.is_active == 1) else rows) ∧
      (∀ c, c ∈ res ↔
        c ∈ (if ao then rows.filter (fun c => c.is_active == 1) else rows) ∧
        calculate_distance_haversine latitude longitude
          c.building_latitude c.building_longitude ≤ r) := by
  refine ⟨(if ao then rows.filter (fun c => c.is_active == 1) else rows).filter
      (fun c => decide (calculate_distance_haversine latitude longitude
        c.building_latitude c.building_longitude ≤ r)), ?_, ?_, ?_⟩
  · show Except.ok ((if ao then rows.filter (fun c => c.is_active == 1) else rows).foldl
        (fun acc company =>
          if calculate_distance_haversine latitude longitude
              company.building_latitude company.building_longitude ≤ r
          then acc ++ [company] else acc) []) = _
    rw [foldl_if_append_eq_filter
      (fun company : LocCompany => calculate_distance_haversine latitude longitude
        company.building_latitude company.building_longitude ≤ r)]
    simp
  · exact List.filter_sublist _
  · intro c
    simp [List.mem_filter]

/-- **C4 (counterexample).** The claim requires that supplying *both* a radius
and a full bounding box is rejected under the exactly-one rule.  The code's
`if radius_km is not None ... elif` chain instead lets the radius take
precedence: here both a radius and a complete, valid box are supplied and the
call succeeds. -/
theorem radius_and_box_together_not_rejected :
    get_companies_by_location [] 0 0 (some 1) (some 0) (some 1) (some 0) (some 1) true
      = .ok [] := rfl

/-- **C4 (amended).** If a radius is supplied the call always succeeds (the
box parameters, complete or not, are ignored).  Without a radius, the call
fails with the InvalidArgument-class error 400 exactly when the four box
bounds are not all present with `min_lat < max_lat` and `min_lng < max_lng`;
and that failure is decided without consulting the store: it is independent
of the candidate rows. -/
theorem get_companies_by_location_argument_validation
    (rows : List LocCompany) (latitude longitude : ℝ)
    (mnla mxla mnlo mxlo : Option ℝ) (ao : Bool) :
    (∀ r, ∃ res, get_companies_by_location rows latitude longitude (some r)
        mnla mxla mnlo mxlo ao = .ok res) ∧
    (get_companies_by_location rows latitude longitude none mnla mxla mnlo mxlo ao
        = .error 400 ↔
      ¬ ∃ a b c d, mnla = some a ∧ mxla = some b ∧ mnlo = some c ∧ mxlo = some d ∧
        a < b ∧ c < d) ∧
    (∀ rows2,
      get_companies_by_location rows latitude longitude none mnla mxla mnlo mxlo ao
          = .error 400 →
      get_companies_by_location rows2 latitude longitude none mnla mxla mnlo mxlo ao
          = .error 400) := by
  refine ⟨fun r => ⟨_, rfl⟩, ?_, ?_⟩
  · rcases mnla with _ | a
    · exact iff_of_true rfl (by rintro ⟨a, b, c, d, h1, h2, h3, h4, h5, h6⟩; cases h1)
    rcases mxla with _ | b
    · exact iff_of_true rfl (by rintro ⟨a, b, c, d, h1, h2, h3, h4, h5, h6⟩; cases h2)
    rcases mnlo with _ | c
    · exact iff_of_true rfl (by rintro ⟨a, b, c, d, h1, h2, h3, h4, h5, h6⟩; cases h3)
    rcases mxlo with _ | d
    · exact iff_of_true rfl (by rintro ⟨a, b, c, d, h1, h2, h3, h4, h5, h6⟩; cases h4)
    rw [get_companies_by_location_box_eq]
    by_cases h : a ≥ b ∨ c ≥ d
    · rw [if_pos h]
      refine iff_of_true rfl ?_
      rintro ⟨a1, b1, c1, d1, h1, h2, h3, h4, h5, h6⟩
      obtain rfl := Option.some.inj h1
      obtain rfl := Option.some.inj h2
      obtain rfl := Option.some.inj h3
      obtain rfl := Option.some.inj h4
      rcases h with h | h <;> linarith
    · rw [if_neg h]
      push_neg at h
      refine iff_of_false (by simp) ?_
      intro hn
      exact hn ⟨a, b, c, d, rfl, rfl, rfl, rfl, h.1, h.2⟩
  · intro rows2 h
    rcases mnla with _ | a
    · rfl
    rcases mxla with _ | b
    · rfl
    rcases mnlo with _ | c
    · rfl
    rcases mxlo with _ | d
    · rfl
    rw [get_companies_by_location_box_eq] at h ⊢
    by_cases hcond : a ≥ b ∨ c ≥ d
    · rw [if_pos hcond]
    · rw [if_neg hcond] at h
      simp at h

theorem get_companies_by_location_argument_validation_witness :
    get_companies_by_location [] 0 0 none (some 1) (some 0) (some 0) (some 1) true
      = .error 400 :=
  (get_companies_by_location_argument_validation [] 0 0
      (some 1) (some 0) (some 0) (some 1) true).2.1.mpr (by
    rintro ⟨a, b, c, d, h1, h2, h3, h4, h5, h6⟩
    obtain rfl := Option.some.inj h1
    obtain rfl := Option.some.inj h2
    linarith)

/-! ### C8 — lossless phone join/split round-trip -/

theorem splitOnChar_no_sep (sep : Char) (l : List Char) (h : sep ∉ l) :
    splitOnChar sep l = [l] := by
  induction l with
  | nil => rfl
  | cons c cs ih =>
      simp only [List.mem_cons, not_or] at h
      simp only [splitOnChar]
      rw [ih h.2, if_neg (fun hc => h.1 hc.symm)]

theorem splitOnChar_append (sep : Char) (x r : List Char) (hx : sep ∉ x) :
    splitOnChar sep (x ++ sep :: r) = x :: splitOnChar sep r := by
  induction x with
  | nil =>
      show splitOnChar sep (sep :: r) = [] :: splitOnChar sep r
      simp [splitOnChar]
  | cons c cs ih =>
      simp only [List.mem_cons, not_or] at hx
      show splitOnChar sep (c :: (cs ++ sep :: r)) = (c :: cs) :: splitOnChar sep r
      simp only [splitOnChar]
      rw [ih hx.2, if_neg (fun hc => hx.1 hc.symm)]

theorem splitOnChar_joinWith (sep : Char) (xs : List (List Char)) (hne : xs ≠ [])
    (h : ∀ x ∈ xs, sep ∉ x) :
    splitOnChar sep (joinWith sep xs) = xs := by
  induction xs with
  | nil => exact absurd rfl hne
  | cons x xs ih =>
      cases xs with
      | nil =>
          show splitOnChar sep x = [x]
          exact splitOnChar_no_sep sep x (h x (List.mem_cons_self x []))
      | cons y ys =>
          show splitOnChar sep (x ++ sep :: joinWith sep (y :: ys))
            = x :: (y :: ys)
          rw [splitOnChar_append sep x _ (h x (List.mem_cons_self _ _))]
          rw [ih (by simp) (fun z hz => h z (List.mem_cons_of_mem x hz))]

theorem pySplitComma_pyJoinComma (xs : List String) (hne : xs ≠ [])
    (h : ∀ x ∈ xs, ',' ∉ x.data) :
    pySplitComma (pyJoinComma xs) = xs := by
  unfold pySplitComma pyJoinComma
  rw [show (⟨joinWith ',' (xs.map String.data)⟩ : String).data
        = joinWith ',' (xs.map String.data) from rfl]
  rw [splitOnChar_joinWith ',' (xs.map String.data) (by simpa using hne)
      (by intro l hl
          obtain ⟨x, hx, rfl⟩ := List.mem_map.mp hl
          exact h x hx)]
  rw [List.map_map]
  have : ((fun l => (⟨l⟩ : String)) ∘ String.data) = id := funext (fun s => rfl)
  rw [this, List.map_id]

theorem pyJoinComma_ne_empty (xs : List String) (hne : xs ≠ []) (hse : xs ≠ [""]) :
    pyJoinComma xs ≠ "" := by
  cases xs with
  | nil => exact absurd rfl hne
  | cons x ys =>
      cases ys with
      | nil =>
          have hx : x ≠ "" := fun hh => hse (by rw [hh])
          intro hcontra
          apply hx
          have hdata : x.data = [] := congrArg String.data hcontra
          exact String.ext hdata
      | cons y zs =>
          intro hcontra
          have hdata := congrArg String.data hcontra
          simp only [pyJoinComma, List.map_cons, joinWith] at hdata
          simp at hdata

theorem find?_append_eq_of_none_left {α : Type} (l1 l2 : List α) (p : α → Bool)
    (h : ∀ x ∈ l1, ¬ p x = true) :
    (l1 ++ l2).find? p = l2.find? p := by
  rw [List.find?_append, List.find?_eq_none.mpr h]
  rfl

theorem get_company_of_find (db : DB) (cid : Nat) (c : Company)
    (h : findCompany db cid = some c) :
    get_company db cid = Except.ok
      { id := c.id, name := c.name,
        phones := if c.phones != "" then pySplitComma c.phones else [],
        description := c.description, website := c.website, email := c.email,
        building_id := c.building_id, is_active := c.is_active != 0,
        category_ids := c.category_ids } := by
  unfold get_company
  rw [h]

/-- **C8 (amended).** Creating a company whose phone list is non-empty,
comma-free and not the single empty string `[""]` and then retrieving it
returns the identical ordered phone list: the comma-join on create and split
on read round-trip losslessly.  (The `[""]` exclusion is forced by the
counterexample below: its joined representation is the empty string, which
`get_company` maps back to `[]`.) -/
theorem company_phones_roundtrip (db : DB) (req : CompanyCreateReq)
    (db2 : DB) (comp : Company)
    (hfresh : ∀ c ∈ db.companies, c.id ≠ db.nextCompanyId)
    (hne : req.phones ≠ []) (hnse : req.phones ≠ [""])
    (hnd : ∀ p ∈ req.phones, ',' ∉ p.data)
    (hcr : create_company db req = .ok (db2, comp)) :
    ∃ out, get_company db2 comp.id = .ok out ∧ out.phones = req.phones := by
  unfold create_company at hcr
  cases hfb : findBuilding db req.building_id with
  | none => rw [hfb] at hcr; simp at hcr
  | some bld =>
      rw [hfb] at hcr
      by_cases hlen : ((db.cats.filter (fun c => req.category_ids.contains c.id)).length
          != req.category_ids.length) = true
      · rw [if_pos hlen] at hcr; simp at hcr
      · rw [if_neg hlen] at hcr
        simp only [Except.ok.injEq, Prod.mk.injEq] at hcr
        obtain ⟨hdb, hcomp⟩ := hcr
        have hphones : comp.phones = pyJoinComma req.phones := by rw [← hcomp]
        have hid : comp.id = db.nextCompanyId := by rw [← hcomp]
        have hcompanies : db2.companies = db.companies ++ [comp] := by
          rw [← hdb, hcomp]
        have hfind : findCompany db2 comp.id = some comp := by
          unfold findCompany
          rw [hcompanies, hid]
          rw [find?_append_eq_of_none_left _ _ _
            (fun x hx => by simpa using hfresh x hx)]
          simp [List.find?, hid]
        have hnz : pyJoinComma req.phones ≠ "" := pyJoinComma_ne_empty _ hne hnse
        refine ⟨_, get_company_of_find db2 comp.id comp hfind, ?_⟩
        show (if (comp.phones != "") = true
              then pySplitComma comp.phones else []) = req.phones
        rw [hphones, if_pos (bne_iff_ne.mpr hnz)]
        exact pySplitComma_pyJoinComma _ hne hnd

theorem company_phones_roundtrip_witness :
    ∃ out, get_company dbPhW2 compPhW.id = .ok out ∧
      out.phones = ["1-111-111", "2-222-222"] :=
  company_phones_roundtrip dbPhW reqPhW dbPhW2 compPhW
    (by intro c hc; exact absurd hc (by simp [dbPhW]))
    (by decide) (by decide) (by decide) rfl

/-- **C8 (counterexample).** The phone list `[""]` is non-empty and none of
its elements contains the delimiter, yet it does not round-trip: the join
stores the empty string, and `get_company`'s falsy-string check turns it back
into `[]`, not `[""]`. -/
theorem company_phones_singleton_empty_not_roundtripped :
    reqPhE.phones = [""] ∧
    create_company dbPhW reqPhE = .ok (dbPhE2, compPhE) ∧
    get_company dbPhE2 1 = .ok outPhE ∧
    outPhE.phones = [] := ⟨rfl, rfl, rfl, rfl⟩

/-! ### C1 — the materialized-path invariant after creation -/

theorem find?_id_map_replace (l : List Category) (c : Category) (p : Nat)
    (hne : p ≠ c.id) :
    (l.map (fun x => if x.id == c.id then c else x)).find? (fun x => x.id == p)
      = l.find? (fun x => x.id == p) := by
  induction l with
  | nil => rfl
  | cons a l ih =>
      by_cases ha : (a.id == c.id) = true
      · have h1 : (c.id == p) = false := by
          simp only [beq_eq_false_iff_ne, ne_eq]
          exact fun hh => hne hh.symm
        have ha2 : a.id = c.id := by simpa using ha
        have h2 : (a.id == p) = false := by
          simp only [beq_eq_false_iff_ne, ne_eq, ha2]
          exact fun hh => hne hh.symm
        simp only [List.map_cons, if_pos ha, List.find?_cons, h1, h2, ih]
      · by_cases hap : (a.id == p) = true
        · simp only [List.map_cons, if_neg ha, List.find?_cons, hap]
        · have h2 : (a.id == p) = false := by simpa using hap
          simp only [List.map_cons, if_neg ha, List.find?_cons, h2, ih]

/-- **C1.** For every successful `create_category`, the created row satisfies
the materialized-path invariant in the resulting store: if the request named a
(truthy, i.e. non-zero) parent then the parent `P` is still found after the
operation and the new row has `path = P.path ++ "/" ++ str(id)` and
`level = P.level + 1`; if the request named no parent, the new row has
`path = str(id)` and `level = 0`.  The hypotheses say the store is
well-formed: ids are below the auto-increment counter and every existing row
has a non-empty path (which creation itself maintains). -/
theorem create_category_materialized_path (db : DB) (nm : String) (pid : Option Nat)
    (db2 : DB) (c : Category)
    (hlt : ∀ x ∈ db.cats, x.id < db.nextCategoryId)
    (hpaths : ∀ x ∈ db.cats, ∃ s, x.path = some s ∧ s ≠ "")
    (hcr : create_category db nm pid = .ok (db2, c)) :
    (∀ p, pid = some p → p ≠ 0 →
       ∃ P s, findCategory db2 p = some P ∧ P.path = some s ∧
         c.path = some (s ++ "/" ++ toString c.id) ∧ c.level = P.level + 1) ∧
    (pid = none → c.path = some (toString c.id) ∧ c.level = 0) := by
  constructor
  · rintro p rfl hp0
    have htr : optNatTruthy (some p) = true := by simpa [optNatTruthy] using hp0
    unfold create_category create_category_insert at hcr
    cases hfc : findCategory db p with
    | none =>
        rw [show ((some p : Option Nat)).getD 0 = p from rfl, htr, hfc] at hcr
        simp at hcr
    | some parent =>
        rw [show ((some p : Option Nat)).getD 0 = p from rfl, htr, hfc] at hcr
        simp only [Option.isNone_some, Bool.and_false, Bool.false_eq_true,
          if_false] at hcr
        have hmem : parent ∈ db.cats := List.mem_of_find?_eq_some hfc
        obtain ⟨s, hs, hsne⟩ := hpaths parent hmem
        have hpid : parent.id = p := by simpa using List.find?_some hfc
        have hplt : p < db.nextCategoryId := hpid ▸ hlt parent hmem
        set c0 : Category := ⟨db.nextCategoryId, nm, some p, 0, none⟩ with hc0
        set db1 : DB :=
          { db with
            cats := db.cats ++ [c0],
            nextCategoryId := db.nextCategoryId + 1 } with hdb1
        have hfind1 : findCategory db1 p = some parent := by
          unfold findCategory
          rw [hdb1]
          show (db.cats ++ [c0]).find? (fun x => x.id == p) = some parent
          rw [List.find?_append]
          rw [show db.cats.find? (fun x => x.id == p) = some parent from hfc]
          rfl
        have hstr : optStrTruthy parent.path = true := by
          rw [hs]; simpa [optStrTruthy] using hsne
        have hupd : update_category_path db1 c0
            = ⟨db.nextCategoryId, nm, some p, parent.level + 1,
               some (s ++ "/" ++ toString db.nextCategoryId)⟩ := by
          unfold update_category_path
          rw [show c0.parent_id = some p from rfl]
          rw [htr]
          simp only [if_true]
          rw [show ((some p : Option Nat)).getD 0 = p from rfl, hfind1]
          show (⟨db.nextCategoryId, nm, some p, parent.level + 1,
              some (if optStrTruthy parent.path = true
                    then parent.path.getD "" ++ "/" ++ toString db.nextCategoryId
                    else toString parent.id ++ "/" ++ toString db.nextCategoryId)⟩
            : Category) = _
          rw [if_pos hstr, hs]
          rfl
        rw [hupd] at hcr
        simp only [Except.ok.injEq, Prod.mk.injEq] at hcr
        obtain ⟨hdb, hc⟩ := hcr
        refine ⟨parent, s, ?_, hs, ?_, ?_⟩
        · rw [← hdb]
          unfold findCategory saveCategory
          show (db1.cats.map (fun x =>
              if x.id == (⟨db.nextCategoryId, nm, some p, parent.level + 1,
                  some (s ++ "/" ++ toString db.nextCategoryId)⟩ : Category).id
              then ⟨db.nextCategoryId, nm, some p, parent.level + 1,
                  some (s ++ "/" ++ toString db.nextCategoryId)⟩
              else x)).find? (fun x => x.id == p) = some parent
          rw [find?_id_map_replace _ _ _
            (by intro hh; rw [hh] at hplt; simp at hplt)]
          exact hfind1
        · rw [← hc]
        · rw [← hc]
  · rintro rfl
    have hroot : create_category db nm none = Except.ok
        (saveCategory
          { db with
            cats := db.cats ++ [(⟨db.nextCategoryId, nm, none, 0, none⟩ : Category)],
            nextCategoryId := db.nextCategoryId + 1 }
          ⟨db.nextCategoryId, nm, none, 0, some (toString db.nextCategoryId)⟩,
         ⟨db.nextCategoryId, nm, none, 0, some (toString db.nextCategoryId)⟩) := rfl
    rw [hroot] at hcr
    simp only [Except.ok.injEq, Prod.mk.injEq] at hcr
    obtain ⟨hdb, hc⟩ := hcr
    rw [← hc]
    exact ⟨rfl, rfl⟩

theorem create_category_materialized_path_witness :
    ∃ P s, findCategory dbC1W2 1 = some P ∧ P.path = some s ∧
      cC1W.path = some (s ++ "/" ++ toString cC1W.id) ∧ cC1W.level = P.level + 1 :=
  (create_category_materialized_path dbC1W "Meat" (some 1) dbC1W2 cC1W
    (by decide)
    (by intro x hx
        simp [dbC1W] at hx
        subst hx
        exact ⟨"1", rfl, by decide⟩)
    rfl).1 1 rfl (by decide)

/-! ### C2 — exact strict-prefix subtree resolution -/

theorem likeMatch_percent_any (s : List Char) : likeMatch ['%'] s = true := by
  induction s with
  | nil => rfl
  | cons c cs ih =>
      show (false || cs.tails.any (fun t => likeMatch [] t)) = true
      rw [Bool.false_or]
      exact ih

theorem likeMatch_lit_percent (p s : List Char)
    (hp : ∀ ch ∈ p, ch ≠ '%' ∧ ch ≠ '_') :
    likeMatch (p ++ ['%']) s = p.isPrefixOf s := by
  induction p generalizing s with
  | nil =>
      show likeMatch ['%'] s = List.isPrefixOf [] s
      rw [likeMatch_percent_any, List.isPrefixOf_nil_left]
  | cons a p ih =>
      obtain ⟨ha1, ha2⟩ := hp a (List.mem_cons_self a p)
      cases s with
      | nil =>
          show likeMatch (a :: (p ++ ['%'])) [] = List.isPrefixOf (a :: p) []
          simp only [likeMatch, if_neg ha1, List.isPrefixOf_cons_nil]
      | cons c s1 =>
          show likeMatch (a :: (p ++ ['%'])) (c :: s1)
            = List.isPrefixOf (a :: p) (c :: s1)
          simp only [likeMatch, if_neg ha1, if_neg ha2, List.isPrefixOf_cons₂]
          rw [ih s1 (fun ch hch => hp ch (List.mem_cons_of_mem a hch))]

theorem sqlLike_path_pattern (tpath s : String)
    (hch : ∀ ch ∈ tpath.data, ch.isDigit ∨ ch = '/') :
    sqlLike (tpath ++ "/%") s = (tpath.data ++ ['/']).isPrefixOf s.data := by
  unfold sqlLike
  rw [String.data_append]
  rw [show ("/%" : String).data = ['/', '%'] from rfl]
  rw [show tpath.data ++ ['/', '%'] = (tpath.data ++ ['/']) ++ ['%'] by simp]
  refine likeMatch_lit_percent _ _ ?_
  intro ch hch2
  rcases List.mem_append.mp hch2 with h | h
  · rcases hch ch h with hd | hd
    · constructor <;> (intro he; subst he; exact absurd hd (by decide))
    · subst hd; exact ⟨by decide, by decide⟩
  · rw [List.mem_singleton.mp h]
    exact ⟨by decide, by decide⟩

/-- **C2.** For an existing category with a truthy materialized path (of digits
and delimiters, as the path maintainer writes them), `get_all_child_category_ids`
returns a duplicate-free list that contains the target id and contains an id
`j` exactly when `j` is the target id or some stored category with id `j` has
a path equal to the target's path or strictly extending it past a `"/"`
delimiter (string-prefix on `path ++ "/"`, so path `"123"` never matches
target path `"12"`). -/
theorem get_all_child_category_ids_subtree_exact (db : DB) (cid : Nat)
    (tgt : Category) (tpath : String)
    (hnodup : (db.cats.map (fun x => x.id)).Nodup)
    (hfind : findCategory db cid = some tgt)
    (hpath : tgt.path = some tpath) (hne : tpath ≠ "")
    (hch : ∀ ch ∈ tpath.data, ch.isDigit ∨ ch = '/') :
    (get_all_child_category_ids db cid).Nodup ∧
    cid ∈ get_all_child_category_ids db cid ∧
    (∀ j, j ∈ get_all_child_category_ids db cid ↔
      (j = cid ∨ ∃ x ∈ db.cats, x.id = j ∧ ∃ s, x.path = some s ∧
        (s = tpath ∨ (tpath.data ++ ['/']).isPrefixOf s.data = true))) := by
  have hopt : optStrTruthy (some tpath) = true := by
    simpa [optStrTruthy] using hne
  have heq : get_all_child_category_ids db cid
      = cid :: ((db.cats.filter (fun child =>
          match child.path with
          | some s => sqlLike (tpath ++ "/%") s || s == tpath
          | none => false)).filter (fun child => child.id != cid)).map (fun x => x.id) := by
    unfold get_all_child_category_ids
    rw [hfind]
    simp only [hpath, Option.getD_some, hopt, if_true, List.singleton_append]
  have hfm : ∀ child : Category,
      ((match child.path with
        | some s => sqlLike (tpath ++ "/%") s || s == tpath
        | none => false) = true)
      ↔ ∃ s, child.path = some s ∧
          (s = tpath ∨ (tpath.data ++ ['/']).isPrefixOf s.data = true) := by
    intro child
    cases hcp : child.path with
    | none => simp
    | some s =>
        rw [show (match (some s : Option String) with
             | some s => sqlLike (tpath ++ "/%") s || s == tpath
             | none => false) = (sqlLike (tpath ++ "/%") s || s == tpath) from rfl]
        rw [sqlLike_path_pattern tpath s hch]
        simp only [Bool.or_eq_true, beq_iff_eq, Option.some.injEq,
          exists_eq_left, exists_eq_left']
        tauto
  refine ⟨?_, ?_, ?_⟩
  · rw [heq]
    refine List.nodup_cons.mpr ⟨?_, ?_⟩
    · intro hmem
      obtain ⟨x, hx, hxid⟩ := List.mem_map.mp hmem
      have hxne := (List.mem_filter.mp hx).2
      rw [hxid] at hxne
      simp at hxne
    · refine List.Nodup.sublist (List.Sublist.map _ ?_) hnodup
      exact (List.filter_sublist _).trans (List.filter_sublist _)
  · rw [heq]
    exact List.mem_cons_self cid _
  · intro j
    rw [heq]
    simp only [List.mem_cons]
    constructor
    · rintro (rfl | hmem)
      · exact Or.inl rfl
      · obtain ⟨x, hx, rfl⟩ := List.mem_map.mp hmem
        obtain ⟨hx2, hxne⟩ := List.mem_filter.mp hx
        obtain ⟨hx3, hxmatch⟩ := List.mem_filter.mp hx2
        exact Or.inr ⟨x, hx3, rfl, (hfm x).mp hxmatch⟩
    · rintro (rfl | ⟨x, hxmem, rfl, hsx⟩)
      · exact Or.inl rfl
      · by_cases hj : x.id = cid
        · exact Or.inl hj
        · refine Or.inr (List.mem_map.mpr ⟨x, ?_, rfl⟩)
          refine List.mem_filter.mpr ⟨List.mem_filter.mpr ⟨hxmem, (hfm x).mpr hsx⟩, ?_⟩
          simpa using hj

theorem get_all_child_category_ids_subtree_exact_witness :
    (get_all_child_category_ids dbC2W 1).Nodup ∧
    1 ∈ get_all_child_category_ids dbC2W 1 :=
  ⟨(get_all_child_category_ids_subtree_exact dbC2W 1 ⟨1, "Food", none, 0, some "1"⟩ "1"
      (by decide) rfl rfl (by decide) (by decide)).1,
   (get_all_child_category_ids_subtree_exact dbC2W 1 ⟨1, "Food", none, 0, some "1"⟩ "1"
      (by decide) rfl rfl (by decide) (by decide)).2.1⟩
